import Mathlib

/-!
Verification of hack/check_go_errors.py.

The script scans Go source files for fmt.Errorf calls whose message
literal does not start with "failed to" and reports each violation as a
GitHub Actions annotation, plus an optional run summary and an exit code.

Modelling choices:
* a file is a list of lines, a line a list of characters;
* the compiled regex fmt\.Errorf\("([^"]+)" together with re.search is
  modelled by matchHere (an anchored match attempt) and searchFrom
  (the leftmost successful attempt), which reproduce the regex semantics:
  the literal call marker, then a nonempty greedy run of non-quote
  characters, then a closing quote;
* main is modelled as a pure function from the resolved outcome of each
  path (scan result, file-not-found, or other processing error) and the
  optional summary-sink environment variable to the printed lines, the
  optional summary-file append and the exit code.
-/

/-- The required prefix wording of the script (REQUIRED_WORDING). -/
def REQUIRED_WORDING : List Char := "failed to".toList

/-- The fixed literal part of ERROR_PATTERN that precedes the capture
group: the call marker followed by the opening double quote. -/
def CALL_MARKER : List Char := "fmt.Errorf(\"".toList

/-- One anchored attempt of ERROR_PATTERN at the start of l: the call
marker must be a prefix, the capture group is the maximal run of
non-quote characters after it (required nonempty by the + quantifier),
and the character right after the capture must be a double quote. -/
def matchHere (l : List Char) : Option (List Char) :=
  if CALL_MARKER.isPrefixOf l then
    let rest := l.drop CALL_MARKER.length
    let cap := rest.takeWhile (fun c => c != '"')
    if cap ≠ [] ∧ (rest.dropWhile (fun c => c != '"')).head? = some '"' then
      some cap
    else none
  else none

/-- re.search on a line: try matchHere at each position from the left and
return, for the first success, the 0-based index of the first captured
character (match.start(1)) together with the captured characters. -/
def searchFrom : List Char → Option (Nat × List Char)
  | [] => none
  | c :: rest =>
    match matchHere (c :: rest) with
    | some cap => some (CALL_MARKER.length, cap)
    | none => (searchFrom rest).map (fun p => (p.1 + 1, p.2))

/-- One entry of the list returned by check_file: line number (1-based),
start column (match.start(1) + 1), end column (match.end(1)) and the
captured message text. -/
structure Violation where
  line_num : Nat
  col_num : Nat
  end_col_num : Nat
  error_message : List Char
deriving DecidableEq, Repr

/-- The body of check_file's loop for one line numbered n: if the pattern
matches and the captured message does not start with the required
wording, produce the Violation recorded by the script. -/
def checkLine (n : Nat) (line : List Char) : Option Violation :=
  match searchFrom line with
  | none => none
  | some (g, cap) =>
    if REQUIRED_WORDING.isPrefixOf cap then none
    else some ⟨n, g + 1, g + cap.length, cap⟩

/-- check_file's loop over enumerate(f, n). -/
def scanLines : Nat → List (List Char) → List Violation
  | _, [] => []
  | n, line :: rest =>
    match checkLine n line with
    | some v => v :: scanLines (n + 1) rest
    | none => scanLines (n + 1) rest

/-- check_file: scan all lines of a file, numbering them from 1. -/
def check_file (lines : List (List Char)) : List Violation :=
  scanLines 1 lines

/-- The resolved outcome of one path of sys.argv, as seen by main's
try/except: a successful scan with its violations, a FileNotFoundError,
or any other exception with its message. -/
inductive ScanOutcome where
  | ok (violations : List Violation)
  | notFound
  | procError (e : String)
deriving DecidableEq, Repr

/-- The fixed annotation title of the script. -/
def TITLE : String := "Incorrect error message format"

/-- The message part of a violation annotation. -/
def violationMessage (v : Violation) : String :=
  "Error message must start with \"" ++ String.mk REQUIRED_WORDING ++
    "\". Found: \"" ++ String.mk v.error_message ++ "\""

/-- The full annotation printed for one violation of one file. -/
def annotationLine (path : String) (v : Violation) : String :=
  "::error title=" ++ TITLE ++ ",file=" ++ path ++
    ",line=" ++ toString v.line_num ++ ",col=" ++ toString v.col_num ++
    ",endLine=" ++ toString v.line_num ++
    ",endColumn=" ++ toString v.end_col_num ++ "::" ++ violationMessage v

/-- The lines main prints for one path, by outcome. -/
def annotationsFor (path : String) : ScanOutcome → List String
  | .ok vs => vs.map (annotationLine path)
  | .notFound => ["::error file=" ++ path ++ "::File not found."]
  | .procError e => ["::error file=" ++ path ++ "::Error processing file: " ++ e]

/-- The error count one path contributes to total_errors in main. -/
def errCount : ScanOutcome → Nat
  | .ok vs => vs.length
  | .notFound => 1
  | .procError _ => 1

/-- The total error count of a run (main's total_errors after the loop). -/
def total_errors (args : List (String × ScanOutcome)) : Nat :=
  (args.map (fun pr => errCount pr.2)).sum

/-- The annotation lines of a whole run, in loop order. -/
def runAnnotations (args : List (String × ScanOutcome)) : List String :=
  (args.map (fun pr => annotationsFor pr.1 pr.2)).flatten

/-- One iteration of main's loop over the paths; the state is
(exit_code, total_errors, lines printed so far). -/
def loopStep (st : Nat × Nat × List String) (pr : String × ScanOutcome) :
    Nat × Nat × List String :=
  match pr.2 with
  | .ok vs =>
    if vs = [] then st
    else (1, st.2.1 + vs.length, st.2.2 ++ vs.map (annotationLine pr.1))
  | .notFound =>
    (1, st.2.1 + 1, st.2.2 ++ ["::error file=" ++ pr.1 ++ "::File not found."])
  | .procError e =>
    (1, st.2.1 + 1,
      st.2.2 ++ ["::error file=" ++ pr.1 ++ "::Error processing file: " ++ e])

/-- The two chunks main writes to the GITHUB_STEP_SUMMARY file: the
heading line and the error-count line. -/
def SUMMARY_HEADING : String := "### Go Error Message Linting\n\n"

/-- The error-count line of the summary file. -/
def summaryCount (n : Nat) : String :=
  "Found " ++ toString n ++ " formatting error(s).\n"

/-- The observable result of one run of main: the lines printed to
standard output, the content appended to the summary file (path and the
list of written chunks) if any, and the exit status. -/
structure MainRun where
  stdout : List String
  summaryAppend : Option (String × List String)
  exit_code : Nat
deriving DecidableEq, Repr

/-- main, as a pure function: prog is sys.argv[0], args pairs each path
of sys.argv[1:] with its resolved ScanOutcome, env is the optional value
of GITHUB_STEP_SUMMARY. -/
def main_model (prog : String) (args : List (String × ScanOutcome))
    (env : Option String) : MainRun :=
  if args = [] then
    { stdout := ["Usage: " ++ prog ++ " <file1.go> <file2.go> ..."],
      summaryAppend := none, exit_code := 1 }
  else
    let st := args.foldl loopStep (0, 0, [])
    if st.2.1 > 0 then
      match env with
      | some p =>
        { stdout := st.2.2,
          summaryAppend := some (p, [SUMMARY_HEADING, summaryCount st.2.1]),
          exit_code := st.1 }
      | none =>
        { stdout :=
            st.2.2 ++ ["\nFound " ++ toString st.2.1 ++ " formatting error(s)."],
          summaryAppend := none, exit_code := st.1 }
    else
      { stdout := st.2.2, summaryAppend := none, exit_code := st.1 }

/-! ### Properties of the pattern matcher -/

lemma isPrefixOf_eq_append {l₁ l₂ : List Char} (h : l₁.isPrefixOf l₂ = true) :
    l₁ ++ l₂.drop l₁.length = l₂ := by
  induction l₁ generalizing l₂ with
  | nil => simp
  | cons a t ih =>
    cases l₂ with
    | nil => simp [List.isPrefixOf] at h
    | cons b t₂ =>
      simp only [List.isPrefixOf, Bool.and_eq_true, beq_iff_eq] at h
      obtain ⟨rfl, h₂⟩ := h
      simp only [List.cons_append, List.length_cons, List.drop_succ_cons, ih h₂]

lemma matchHere_sound {l cap : List Char} (h : matchHere l = some cap) :
    cap ≠ [] ∧ ∃ t, l = CALL_MARKER ++ (cap ++ '"' :: t) := by
  simp only [matchHere] at h
  split at h
  · split at h
    · rename_i hp hc
      obtain ⟨hne, hhd⟩ := hc
      injection h with h
      subst h
      refine ⟨hne, ?_⟩
      cases hd : (l.drop CALL_MARKER.length).dropWhile (fun c => c != '"') with
      | nil => rw [hd] at hhd; simp at hhd
      | cons x xs =>
        rw [hd] at hhd
        simp only [List.head?_cons, Option.some.injEq] at hhd
        subst hhd
        refine ⟨xs, ?_⟩
        have hl : CALL_MARKER ++ l.drop CALL_MARKER.length = l :=
          isPrefixOf_eq_append hp
        have hsplit :
            (l.drop CALL_MARKER.length).takeWhile (fun c => c != '"') ++
              (l.drop CALL_MARKER.length).dropWhile (fun c => c != '"') =
              l.drop CALL_MARKER.length :=
          List.takeWhile_append_dropWhile (fun c => c != '"')
            (l.drop CALL_MARKER.length)
        rw [hd] at hsplit
        conv_lhs => rw [← hl]
        rw [hsplit]
    · exact absurd h (by simp)
  · exact absurd h (by simp)

lemma matchHere_nil : matchHere [] = none := by decide

lemma searchFrom_sound {l : List Char} {g : Nat} {cap : List Char}
    (h : searchFrom l = some (g, cap)) :
    CALL_MARKER.length ≤ g ∧ cap ≠ [] ∧
      ∃ t, l.drop (g - CALL_MARKER.length) = CALL_MARKER ++ (cap ++ '"' :: t) := by
  induction l generalizing g with
  | nil => simp [searchFrom] at h
  | cons c rest ih =>
    simp only [searchFrom] at h
    cases hm : matchHere (c :: rest) with
    | some cap' =>
      rw [hm] at h
      obtain ⟨rfl, rfl⟩ : g = CALL_MARKER.length ∧ cap' = cap := by
        injection h with h
        injection h with h₁ h₂
        exact ⟨h₁.symm, h₂⟩
      obtain ⟨hne, t, ht⟩ := matchHere_sound hm
      exact ⟨le_refl _, hne, t, by simpa [Nat.sub_self] using ht⟩
    | none =>
      rw [hm] at h
      cases hs : searchFrom rest with
      | none => rw [hs] at h; simp at h
      | some p =>
        obtain ⟨g', cap'⟩ := p
        rw [hs] at h
        simp only [Option.map_some] at h
        obtain ⟨rfl, rfl⟩ : g' + 1 = g ∧ cap' = cap := by
          injection h with h
          injection h with h₁ h₂
          exact ⟨h₁, h₂⟩
        obtain ⟨hle, hne, t, ht⟩ := ih hs
        refine ⟨Nat.le_succ_of_le hle, hne, t, ?_⟩
        have hg : g' + 1 - CALL_MARKER.length = (g' - CALL_MARKER.length) + 1 := by
          omega
        rw [hg, List.drop_succ_cons]
        exact ht

lemma searchFrom_first {l : List Char} {g : Nat} {cap : List Char}
    (h : searchFrom l = some (g, cap)) :
    ∀ j, j < g - CALL_MARKER.length → matchHere (l.drop j) = none := by
  induction l generalizing g with
  | nil => simp [searchFrom] at h
  | cons c rest ih =>
    simp only [searchFrom] at h
    cases hm : matchHere (c :: rest) with
    | some cap' =>
      rw [hm] at h
      simp only [Option.some.injEq, Prod.mk.injEq] at h
      obtain ⟨rfl, rfl⟩ := h
      intro j hj
      omega
    | none =>
      rw [hm] at h
      cases hs : searchFrom rest with
      | none => rw [hs] at h; simp at h
      | some p =>
        obtain ⟨g', cap'⟩ := p
        rw [hs] at h
        simp only [Option.map_some, Option.some.injEq, Prod.mk.injEq] at h
        obtain ⟨rfl, rfl⟩ := h
        intro j hj
        cases j with
        | zero => simpa using hm
        | succ j' =>
          rw [List.drop_succ_cons]
          exact ih hs j' (by omega)

lemma searchFrom_complete {l : List Char} {j : Nat} {cap : List Char}
    (h : matchHere (l.drop j) = some cap) :
    ∃ g cap', searchFrom l = some (g, cap') := by
  induction l generalizing j with
  | nil =>
    rw [List.drop_nil] at h
    rw [matchHere_nil] at h
    exact absurd h (by simp)
  | cons c rest ih =>
    cases j with
    | zero =>
      rw [List.drop_zero] at h
      exact ⟨CALL_MARKER.length, cap, by simp only [searchFrom, h]⟩
    | succ j' =>
      rw [List.drop_succ_cons] at h
      obtain ⟨g', cap', hs⟩ := ih h
      cases hm : matchHere (c :: rest) with
      | some cap'' =>
        exact ⟨CALL_MARKER.length, cap'', by simp only [searchFrom, hm]⟩
      | none =>
        refine ⟨g' + 1, cap', ?_⟩
        simp only [searchFrom, hm, hs]
        rfl

/-! ### Properties of the per-file scan -/

lemma checkLine_line_num {n : Nat} {line : List Char} {v : Violation}
    (h : checkLine n line = some v) : v.line_num = n := by
  cases hs : searchFrom line with
  | none => simp [checkLine, hs] at h
  | some p =>
    obtain ⟨g, cap⟩ := p
    simp only [checkLine, hs] at h
    split at h
    · exact absurd h (by simp)
    · injection h with h
      subst h
      rfl

lemma checkLine_message_ne_nil {n : Nat} {line : List Char} {v : Violation}
    (h : checkLine n line = some v) : v.error_message ≠ [] := by
  cases hs : searchFrom line with
  | none => simp [checkLine, hs] at h
  | some p =>
    obtain ⟨g, cap⟩ := p
    simp only [checkLine, hs] at h
    split at h
    · exact absurd h (by simp)
    · injection h with h
      subst h
      exact (searchFrom_sound hs).2.1

lemma scanLines_line_num_le {n : Nat} {lines : List (List Char)} {v : Violation}
    (h : v ∈ scanLines n lines) : n ≤ v.line_num := by
  induction lines generalizing n with
  | nil => simp [scanLines] at h
  | cons line rest ih =>
    simp only [scanLines] at h
    cases hc : checkLine n line with
    | some w =>
      rw [hc] at h
      rcases List.mem_cons.mp h with h | h
      · subst h
        exact le_of_eq (checkLine_line_num hc).symm
      · exact Nat.le_of_succ_le (ih h)
    | none =>
      rw [hc] at h
      exact Nat.le_of_succ_le (ih h)

lemma scanLines_pairwise (n : Nat) (lines : List (List Char)) :
    (scanLines n lines).Pairwise (fun a b => a.line_num < b.line_num) := by
  induction lines generalizing n with
  | nil => simp [scanLines]
  | cons line rest ih =>
    simp only [scanLines]
    cases hc : checkLine n line with
    | some v =>
      refine List.Pairwise.cons ?_ (ih (n + 1))
      intro w hw
      have h1 : v.line_num = n := checkLine_line_num hc
      have h2 : n + 1 ≤ w.line_num := scanLines_line_num_le hw
      omega
    | none => exact ih (n + 1)

lemma scanLines_filter (n j : Nat) (lines : List (List Char)) :
    (scanLines n lines).filter (fun v => v.line_num == n + j) =
      (lines[j]?.bind (fun line => checkLine (n + j) line)).toList := by
  induction lines generalizing n j with
  | nil => simp [scanLines]
  | cons line rest ih =>
    cases j with
    | zero =>
      simp only [scanLines, Nat.add_zero, List.getElem?_cons_zero, Option.some_bind]
      cases hc : checkLine n line with
      | some v =>
        have hv : v.line_num = n := checkLine_line_num hc
        have htail :
            (scanLines (n + 1) rest).filter (fun v => v.line_num == n) = [] := by
          rw [List.filter_eq_nil_iff]
          intro w hw
          have := scanLines_line_num_le hw
          simp only [beq_iff_eq]
          omega
        simp [List.filter_cons, hv, htail]
      | none =>
        have htail :
            (scanLines (n + 1) rest).filter (fun v => v.line_num == n) = [] := by
          rw [List.filter_eq_nil_iff]
          intro w hw
          have := scanLines_line_num_le hw
          simp only [beq_iff_eq]
          omega
        simp [htail]
    | succ k =>
      simp only [scanLines, List.getElem?_cons_succ]
      have harith : n + (k + 1) = (n + 1) + k := by omega
      cases hc : checkLine n line with
      | some v =>
        have hv : v.line_num = n := checkLine_line_num hc
        have hne : (v.line_num == n + (k + 1)) = false := by
          simp only [beq_eq_false_iff_ne]
          omega
        rw [List.filter_cons, hne]
        simp only [harith]
        exact ih (n + 1) k
      | none =>
        simp only [harith]
        exact ih (n + 1) k

lemma check_file_filter (lines : List (List Char)) (n : Nat) :
    (check_file lines).filter (fun v => v.line_num == n + 1) =
      (lines[n]?.bind (fun line => checkLine (n + 1) line)).toList := by
  have h := scanLines_filter 1 n lines
  rw [check_file]
  simpa [Nat.add_comm] using h

/-! ### Properties of the reporter -/

lemma total_errors_cons (pr : String × ScanOutcome)
    (rest : List (String × ScanOutcome)) :
    total_errors (pr :: rest) = errCount pr.2 + total_errors rest := by
  simp [total_errors]

lemma total_errors_append (a b : List (String × ScanOutcome)) :
    total_errors (a ++ b) = total_errors a + total_errors b := by
  simp [total_errors]

lemma runAnnotations_cons (pr : String × ScanOutcome)
    (rest : List (String × ScanOutcome)) :
    runAnnotations (pr :: rest) = annotationsFor pr.1 pr.2 ++ runAnnotations rest := by
  simp [runAnnotations]

lemma runAnnotations_append (a b : List (String × ScanOutcome)) :
    runAnnotations (a ++ b) = runAnnotations a ++ runAnnotations b := by
  simp [runAnnotations]

lemma foldl_loopStep (args : List (String × ScanOutcome)) (e t : Nat)
    (out : List String) :
    args.foldl loopStep (e, t, out) =
      ((if total_errors args = 0 then e else 1), t + total_errors args,
        out ++ runAnnotations args) := by
  induction args generalizing e t out with
  | nil => simp [total_errors, runAnnotations]
  | cons pr rest ih =>
    obtain ⟨p, r⟩ := pr
    rw [List.foldl_cons, total_errors_cons, runAnnotations_cons]
    cases r with
    | ok vs =>
      by_cases hvs : vs = []
      · subst hvs
        rw [show loopStep (e, t, out) (p, ScanOutcome.ok []) = (e, t, out) from by
            simp [loopStep]]
        rw [ih]
        simp [errCount, annotationsFor]
      · rw [show loopStep (e, t, out) (p, ScanOutcome.ok vs) =
            (1, t + vs.length, out ++ vs.map (annotationLine p)) from by
              simp [loopStep, hvs]]
        rw [ih]
        have hlen : 0 < vs.length := List.length_pos.mpr hvs
        simp only [Prod.mk.injEq, errCount, annotationsFor]
        refine ⟨?_, by omega, by simp [List.append_assoc]⟩
        rw [ite_self, if_neg (by omega)]
    | notFound =>
      rw [show loopStep (e, t, out) (p, ScanOutcome.notFound) =
          (1, t + 1, out ++ ["::error file=" ++ p ++ "::File not found."]) from by
            simp [loopStep]]
      rw [ih]
      simp only [Prod.mk.injEq, errCount, annotationsFor]
      refine ⟨?_, by omega, by simp [List.append_assoc]⟩
      rw [ite_self, if_neg (by omega)]
    | procError msg =>
      rw [show loopStep (e, t, out) (p, ScanOutcome.procError msg) =
          (1, t + 1,
            out ++ ["::error file=" ++ p ++ "::Error processing file: " ++ msg])
          from by simp [loopStep]]
      rw [ih]
      simp only [Prod.mk.injEq, errCount, annotationsFor]
      refine ⟨?_, by omega, by simp [List.append_assoc]⟩
      rw [ite_self, if_neg (by omega)]

/-! ### Claims -/

/-- C1: for every input line whose ERROR_PATTERN match captures a message
text that does not begin with the required wording "failed to",
check_file produces exactly one Violation for that line; its start
column is the 1-based position of the first character of the captured
text in the line (the capture occupies 0-based positions g to
g + cap.length - 1, certified by the last two conjuncts) and its end
column g + cap.length is the position one past the last matched
character of the captured text. -/
theorem C1_violation_columns (lines : List (List Char)) (n g : Nat)
    (line cap : List Char)
    (hline : lines[n]? = some line)
    (hsearch : searchFrom line = some (g, cap))
    (hbad : REQUIRED_WORDING.isPrefixOf cap = false) :
    (check_file lines).filter (fun v => v.line_num == n + 1) =
      [⟨n + 1, g + 1, g + cap.length, cap⟩] ∧
    CALL_MARKER.length ≤ g ∧ (line.drop g).take cap.length = cap := by
  obtain ⟨hle, hne, t, ht⟩ := searchFrom_sound hsearch
  have hcl : checkLine (n + 1) line =
      some ⟨n + 1, g + 1, g + cap.length, cap⟩ := by
    simp [checkLine, hsearch, hbad]
  refine ⟨?_, hle, ?_⟩
  · rw [check_file_filter, hline]
    simp [hcl]
  · have h2 : List.drop CALL_MARKER.length
        (List.drop (g - CALL_MARKER.length) line) = line.drop g := by
      rw [List.drop_drop]
      congr 1
      omega
    rw [← h2, ht, List.drop_left]
    exact List.take_left cap ('"' :: t)

theorem C1_violation_columns_witness :
    (["fmt.Errorf(\"could not open config\")".toList][0]? =
      some "fmt.Errorf(\"could not open config\")".toList) ∧
    searchFrom "fmt.Errorf(\"could not open config\")".toList =
      some (12, "could not open config".toList) ∧
    REQUIRED_WORDING.isPrefixOf "could not open config".toList = false ∧
    ((check_file ["fmt.Errorf(\"could not open config\")".toList]).filter
        (fun v => v.line_num == 0 + 1) =
      [⟨0 + 1, 12 + 1, 12 + ("could not open config".toList).length,
        "could not open config".toList⟩] ∧
    CALL_MARKER.length ≤ 12 ∧
    (("fmt.Errorf(\"could not open config\")".toList).drop 12).take
        ("could not open config".toList).length =
      "could not open config".toList) :=
  ⟨by decide, by decide, by decide,
    C1_violation_columns ["fmt.Errorf(\"could not open config\")".toList] 0 12
      "fmt.Errorf(\"could not open config\")".toList
      "could not open config".toList (by decide) (by decide) (by decide)⟩

/-- C2: for every input line whose ERROR_PATTERN match captures a message
text that does begin with the required wording "failed to", check_file
produces no Violation for that line. -/
theorem C2_conforming_no_violation (lines : List (List Char)) (n g : Nat)
    (line cap : List Char)
    (hline : lines[n]? = some line)
    (hsearch : searchFrom line = some (g, cap))
    (hok : REQUIRED_WORDING.isPrefixOf cap = true) :
    (check_file lines).filter (fun v => v.line_num == n + 1) = [] := by
  rw [check_file_filter, hline]
  have hcl : checkLine (n + 1) line = none := by
    simp only [checkLine, hsearch]
    rw [if_pos hok]
  rw [Option.some_bind, hcl]
  rfl

theorem C2_conforming_no_violation_witness :
    (["fmt.Errorf(\"failed to open config: %w\", err)".toList][0]? =
      some "fmt.Errorf(\"failed to open config: %w\", err)".toList) ∧
    searchFrom "fmt.Errorf(\"failed to open config: %w\", err)".toList =
      some (12, "failed to open config: %w".toList) ∧
    REQUIRED_WORDING.isPrefixOf "failed to open config: %w".toList = true ∧
    (check_file ["fmt.Errorf(\"failed to open config: %w\", err)".toList]).filter
        (fun v => v.line_num == 0 + 1) = [] :=
  ⟨by decide, by decide, by decide,
    C2_conforming_no_violation
      ["fmt.Errorf(\"failed to open config: %w\", err)".toList] 0 12
      "fmt.Errorf(\"failed to open config: %w\", err)".toList
      "failed to open config: %w".toList (by decide) (by decide) (by decide)⟩

/-- C3: the exit status of a run is 0 when the total error count
(violations plus file-level failures) is zero and 1 when it is nonzero,
and a run with zero file arguments is a usage error that also exits
with status 1. -/
theorem C3_exit_status (prog : String) (args : List (String × ScanOutcome))
    (env : Option String) :
    (main_model prog args env).exit_code =
      if args = [] then 1 else if total_errors args = 0 then 0 else 1 := by
  by_cases h : args = []
  · subst h
    simp [main_model]
  · rw [if_neg h]
    simp only [main_model, if_neg h, foldl_loopStep]
    by_cases ht : total_errors args = 0
    · simp [ht]
    · have hpos : 0 < total_errors args := Nat.pos_of_ne_zero ht
      cases env <;> simp [ht, hpos]

/-- C8: invoking the program with zero file arguments prints the usage
message and exits with status 1 without producing any annotation or
summary. -/
theorem C8_usage_error (prog : String) (env : Option String) :
    main_model prog [] env =
      { stdout := ["Usage: " ++ prog ++ " <file1.go> <file2.go> ..."],
        summaryAppend := none, exit_code := 1 } := by
  simp [main_model]

/-- C9: the violations returned by check_file are in single-pass scan
order: their line numbers are strictly increasing, and the violations
carrying line number n + 1 are exactly those produced by checkLine on
the line stored at index n of the file. -/
theorem C9_scan_order (lines : List (List Char)) (n : Nat) :
    (check_file lines).Pairwise (fun a b => a.line_num < b.line_num) ∧
    (check_file lines).filter (fun v => v.line_num == n + 1) =
      (lines[n]?.bind (fun line => checkLine (n + 1) line)).toList :=
  ⟨scanLines_pairwise 1 lines, check_file_filter lines n⟩

/-- C4: a path whose scan raises FileNotFoundError yields exactly one
file-level annotation with no line or column fields, contributes exactly
1 to the total error count, and the paths after it are still processed:
their annotations all appear in the output after the file-level one. -/
theorem C4_missing_file (prog sp p : String)
    (pre post : List (String × ScanOutcome)) :
    annotationsFor p ScanOutcome.notFound =
      ["::error file=" ++ p ++ "::File not found."] ∧
    total_errors (pre ++ (p, ScanOutcome.notFound) :: post) =
      total_errors pre + 1 + total_errors post ∧
    (main_model prog (pre ++ (p, ScanOutcome.notFound) :: post) (some sp)).stdout =
      runAnnotations pre ++
        ("::error file=" ++ p ++ "::File not found.") :: runAnnotations post := by
  have hne : pre ++ (p, ScanOutcome.notFound) :: post ≠ [] := by simp
  refine ⟨rfl, ?_, ?_⟩
  · rw [total_errors_append, total_errors_cons]
    simp only [errCount]
    omega
  · simp only [main_model, if_neg hne, foldl_loopStep]
    split <;>
      simp [runAnnotations_append, runAnnotations_cons, annotationsFor]

/-- C6: at most one Violation is produced per line, and only the first
occurrence of the pattern in a line is checked: whenever the pattern
matches at some position of the line, the searcher commits to a match
whose capture starts no later, and no pattern occurrence exists strictly
before the committed one. -/
theorem C6_first_match_only (lines : List (List Char)) (n j : Nat)
    (line cap' : List Char)
    (hmatch : matchHere (line.drop j) = some cap') :
    ((check_file lines).filter (fun v => v.line_num == n)).length ≤ 1 ∧
    ∃ g cap, searchFrom line = some (g, cap) ∧
      g - CALL_MARKER.length ≤ j ∧
      ∀ i, i < g - CALL_MARKER.length → matchHere (line.drop i) = none := by
  constructor
  · cases n with
    | zero =>
      have hz : (check_file lines).filter (fun v => v.line_num == 0) = [] := by
        rw [List.filter_eq_nil_iff]
        intro v hv
        simp only [check_file] at hv
        have := scanLines_line_num_le hv
        simp only [beq_iff_eq]
        omega
      simp [hz]
    | succ m =>
      rw [check_file_filter lines m]
      cases hl : lines[m]? with
      | none => simp
      | some line' =>
        rw [Option.some_bind]
        cases hc : checkLine (m + 1) line' <;> simp
  · obtain ⟨g, cap, hs⟩ := searchFrom_complete hmatch
    refine ⟨g, cap, hs, ?_, searchFrom_first hs⟩
    by_contra hgt
    have hj : j < g - CALL_MARKER.length := by omega
    have := searchFrom_first hs j hj
    rw [this] at hmatch
    exact absurd hmatch (by simp)

theorem C6_first_match_only_witness :
    matchHere (("fmt.Errorf(\"a\")fmt.Errorf(\"b\")".toList).drop 15) =
      some "b".toList ∧
    (((check_file ["fmt.Errorf(\"a\")fmt.Errorf(\"b\")".toList]).filter
        (fun v => v.line_num == 1)).length ≤ 1 ∧
    ∃ g cap,
      searchFrom "fmt.Errorf(\"a\")fmt.Errorf(\"b\")".toList = some (g, cap) ∧
      g - CALL_MARKER.length ≤ 15 ∧
      ∀ i, i < g - CALL_MARKER.length →
        matchHere (("fmt.Errorf(\"a\")fmt.Errorf(\"b\")".toList).drop i) = none) :=
  ⟨by decide,
    C6_first_match_only ["fmt.Errorf(\"a\")fmt.Errorf(\"b\")".toList] 1 15
      "fmt.Errorf(\"a\")fmt.Errorf(\"b\")".toList "b".toList (by decide)⟩

/-- C7: provided at least one file argument is given, the run summary is
produced exactly when the total error count is nonzero; when the
summary-sink environment variable is set the summary (the heading chunk
and the error-count chunk) is appended to the file at that path, and
when it is unset the count information is printed to standard output
after the annotations instead. -/
theorem C7_summary_sink (prog : String) (args : List (String × ScanOutcome))
    (env : Option String) (h : args ≠ []) :
    (main_model prog args env).summaryAppend =
      (if total_errors args = 0 then none
       else env.map fun p =>
        (p, [SUMMARY_HEADING, summaryCount (total_errors args)])) ∧
    (main_model prog args env).stdout =
      runAnnotations args ++
        (if total_errors args = 0 ∨ env ≠ none then []
         else ["\nFound " ++ toString (total_errors args) ++
            " formatting error(s)."]) := by
  simp only [main_model, if_neg h, foldl_loopStep]
  by_cases ht : total_errors args = 0
  · simp [ht]
  · have hpos : 0 < total_errors args := Nat.pos_of_ne_zero ht
    cases env with
    | none => simp [ht, hpos]
    | some sp => simp [ht, hpos]

theorem C7_summary_sink_witness :
    ([("a.go", ScanOutcome.notFound)] : List (String × ScanOutcome)) ≠ [] ∧
    ((main_model "lint" [("a.go", ScanOutcome.notFound)]
        (some "s.md")).summaryAppend =
      (if total_errors [("a.go", ScanOutcome.notFound)] = 0 then none
       else (some "s.md").map fun p =>
        (p, [SUMMARY_HEADING,
          summaryCount (total_errors [("a.go", ScanOutcome.notFound)])])) ∧
    (main_model "lint" [("a.go", ScanOutcome.notFound)] (some "s.md")).stdout =
      runAnnotations [("a.go", ScanOutcome.notFound)] ++
        (if total_errors [("a.go", ScanOutcome.notFound)] = 0 ∨
            (some "s.md" : Option String) ≠ none then []
         else ["\nFound " ++
            toString (total_errors [("a.go", ScanOutcome.notFound)]) ++
            " formatting error(s)."])) :=
  ⟨List.cons_ne_nil _ _,
    C7_summary_sink "lint" [("a.go", ScanOutcome.notFound)] (some "s.md")
      (List.cons_ne_nil _ _)⟩

/-- C5: every violation is reported as exactly one output line of the
form ::error title=<fixed title>,file=<path>,line=<n>,col=<c1>,
endLine=<n>,endColumn=<c2>::<message>, where the message embeds the
required wording and the captured text verbatim; in particular for the
input line fmt.Errorf("could not open config") the produced violation
carries the message Error message must start with "failed to".
Found: "could not open config". -/
theorem C5_annotation_format (path : String) (v : Violation) :
    annotationLine path v =
      "::error title=Incorrect error message format,file=" ++ path ++
        ",line=" ++ toString v.line_num ++ ",col=" ++ toString v.col_num ++
        ",endLine=" ++ toString v.line_num ++
        ",endColumn=" ++ toString v.end_col_num ++ "::" ++ violationMessage v ∧
    violationMessage v =
      "Error message must start with \"failed to\". Found: \"" ++
        String.mk v.error_message ++ "\"" ∧
    check_file ["fmt.Errorf(\"could not open config\")".toList] =
      [⟨1, 13, 33, "could not open config".toList⟩] ∧
    violationMessage ⟨1, 13, 33, "could not open config".toList⟩ =
      "Error message must start with \"failed to\". Found: \"could not open config\"" :=
  ⟨rfl, rfl, by decide, by decide⟩

lemma scanLines_mem {n : Nat} {lines : List (List Char)} {v : Violation}
    (h : v ∈ scanLines n lines) :
    ∃ m line, checkLine m line = some v := by
  induction lines generalizing n with
  | nil => simp [scanLines] at h
  | cons line rest ih =>
    simp only [scanLines] at h
    cases hc : checkLine n line with
    | some w =>
      rw [hc] at h
      rcases List.mem_cons.mp h with h | h
      · subst h
        exact ⟨n, line, hc⟩
      · exact ih h
    | none =>
      rw [hc] at h
      exact ih h

/-- C10 counterexample: the claim fails as universally stated. The
concrete line fmt.Errorf("")fmt.Errorf("oops") contains fmt.Errorf("")
with an empty string literal (first conjunct exhibits the decomposition),
yet check_file produces a Violation for it: the search skips the
unmatchable empty-literal call and matches the later call. -/
theorem C10_counterexample :
    ("fmt.Errorf(\"\")" ++ "fmt.Errorf(\"oops\")").toList =
      "fmt.Errorf(\"\")".toList ++ "fmt.Errorf(\"oops\")".toList ∧
    check_file [("fmt.Errorf(\"\")" ++ "fmt.Errorf(\"oops\")").toList] =
      [⟨1, 27, 30, "oops".toList⟩] := by decide

/-- C10 (amended): the empty-literal call fmt.Errorf("") never itself
produces a Violation, because the match pattern requires at least one
character inside the quotes: every Violation's captured text is
nonempty, and a line consisting of fmt.Errorf("") alone produces no
Violation even though the empty message does not begin with the
required wording. (A line containing the empty-literal call can still
get a Violation from a later nonempty-literal call on the same line.) -/
theorem C10_empty_literal (lines : List (List Char)) (v : Violation)
    (h : v ∈ check_file lines) :
    v.error_message ≠ [] ∧ check_file ["fmt.Errorf(\"\")".toList] = [] := by
  refine ⟨?_, by decide⟩
  simp only [check_file] at h
  obtain ⟨m, line, hc⟩ := scanLines_mem h
  exact checkLine_message_ne_nil hc

theorem C10_empty_literal_witness :
    (⟨1, 27, 30, "oops".toList⟩ : Violation) ∈
      check_file [("fmt.Errorf(\"\")" ++ "fmt.Errorf(\"oops\")").toList] ∧
    ((⟨1, 27, 30, "oops".toList⟩ : Violation).error_message ≠ [] ∧
      check_file ["fmt.Errorf(\"\")".toList] = []) :=
  ⟨by decide,
    C10_empty_literal [("fmt.Errorf(\"\")" ++ "fmt.Errorf(\"oops\")").toList]
      ⟨1, 27, 30, "oops".toList⟩ (by decide)⟩

